import Mathlib

/-!
Shallow embedding of the complaint-analysis pipeline of
`backend/grievance_summarizer.py` (class `GrievanceSummarizer`) together with
the slice of `backend/app.py` the claims touch.

Modelling conventions:
* a pandas DataFrame row is a record structure; a missing/NaN `raw_text` cell
  is `Option.none`;
* every call to `np.random.choice` is modelled by consulting an explicit
  `Oracle` of draws, indexed by row position (the code draws one value per
  row, via `size=len(df)` or one call per unclassified row);
* the optional transformers pipelines are modelled as optional functions
  `String → Option String` (`none` result = the Python call raised and the
  `except` branch runs);
* the `try/except` wrapper of `process_complaints` is modelled with `Except`
  and `Except.toOption` (any error becomes `None`).
-/

namespace GrievanceInsight

/-- The fixed category labels (`self.categories` in the source). -/
inductive Category where
  | hostel
  | mess
  | academics
  | administration
  deriving DecidableEq, Repr

/-- String form of a category, as stored in the `category` column. -/
def Category.toName : Category → String
  | .hostel => "Hostel"
  | .mess => "Mess"
  | .academics => "Academics"
  | .administration => "Administration"

/-- The sentiment labels of the random fallback draw in `analyze_sentiment`. -/
inductive Sentiment where
  | negative
  | neutral
  | positive
  deriving DecidableEq, Repr

/-- String form of a sentiment label. -/
def Sentiment.toName : Sentiment → String
  | .negative => "Negative"
  | .neutral => "Neutral"
  | .positive => "Positive"

/-- The urgency labels of the random draw in `analyze_sentiment`. -/
inductive Urgency where
  | high
  | medium
  | low
  deriving DecidableEq, Repr

/-- String form of an urgency label. -/
def Urgency.toName : Urgency → String
  | .high => "High"
  | .medium => "Medium"
  | .low => "Low"

/-- One stream of random draws per `np.random.choice` site, indexed by row
position. Passing the oracle explicitly makes every pipeline stage a pure
function of its input and the sampled values. -/
structure Oracle where
  categoryDraw : Nat → Category
  sentimentDraw : Nat → Sentiment
  urgencyDraw : Nat → Urgency

/-- A raw input row: the `raw_text` cell, `none` when the value is NaN/null. -/
structure RawRecord where
  raw_text : Option String
  deriving DecidableEq, Repr

/-- A row after `clean_data` added the `clean_text` column. -/
structure CleanRecord where
  raw_text : Option String
  clean_text : String
  deriving DecidableEq, Repr

/-- A row after `classify_complaints` added the `category` column. -/
structure ClassifiedRecord where
  raw_text : Option String
  clean_text : String
  category : String
  deriving DecidableEq, Repr

/-- A row after `analyze_sentiment` added `sentiment` and `urgency`. -/
structure AnalyzedRecord where
  raw_text : Option String
  clean_text : String
  category : String
  sentiment : String
  urgency : String
  deriving DecidableEq, Repr

/-! ### String helpers mirroring the Python string methods used -/

/-- Python `str.lower()` (ASCII; the texts the claims use are ASCII). -/
def pyLower (s : String) : String := String.mk (s.data.map Char.toLower)

/-- Characters Python `str.strip()` removes. -/
def isPyWs (c : Char) : Bool :=
  c == ' ' || c == '\t' || c == '\n' || c == '\x0d' || c == '\x0b' || c == '\x0c'

/-- Python `str.strip()`: drop leading and trailing whitespace. -/
def pyStrip (s : String) : String :=
  String.mk (((s.data.dropWhile isPyWs).reverse.dropWhile isPyWs).reverse)

/-- Python slicing `s[:n]`. -/
def strTake (s : String) (n : Nat) : String := String.mk (s.data.take n)

/-- Python `str.capitalize()`: first char upper, rest lower. -/
def pyCapitalize (s : String) : String :=
  match s.data with
  | [] => ""
  | c :: rest => String.mk (Char.toUpper c :: rest.map Char.toLower)

/-- Python `' '.join(texts)`. -/
def joinSpace (texts : List String) : String := String.intercalate " " texts

/-- Bool test that `needle` is an initial segment of `hay`. -/
def startsWithB : List Char → List Char → Bool
  | [], _ => true
  | _ :: _, [] => false
  | c :: cs, d :: ds => c == d && startsWithB cs ds

/-- Bool test that `needle` occurs contiguously inside `hay`. -/
def containsListB (needle : List Char) : List Char → Bool
  | [] => needle.isEmpty
  | d :: ds => startsWithB needle (d :: ds) || containsListB needle ds

/-- Python `needle in hay` substring containment on strings. -/
def containsStrB (needle hay : String) : Bool := containsListB needle.data hay.data

/-- Python `any(word in text for word in kws)`. -/
def anyKeyword (text : String) (kws : List String) : Bool :=
  kws.any (fun w => containsStrB w text)

/-! ### clean_data -/

/-- The `clean_text` helper inside `clean_data`: NaN maps to `""`, otherwise
`str(text).lower().strip()`. -/
def cleanTextFn : Option String → String
  | none => ""
  | some s => pyStrip (pyLower s)

/-- Worker for `df.drop_duplicates(subset=['raw_text'])`: keep a row when its
`raw_text` value was not seen before (pandas treats the NaN cells as equal to
each other here, matching `Option.none == Option.none`). -/
def dropDupAux (seen : List (Option String)) : List RawRecord → List RawRecord
  | [] => []
  | r :: rest =>
    if seen.contains r.raw_text then dropDupAux seen rest
    else r :: dropDupAux (r.raw_text :: seen) rest

/-- `df.drop_duplicates(subset=['raw_text'])`: first occurrence wins,
original order preserved. -/
def drop_duplicates (rs : List RawRecord) : List RawRecord := dropDupAux [] rs

/-- `GrievanceSummarizer.clean_data`: dedup on `raw_text`, then add the
normalized `clean_text` column. -/
def clean_data (rs : List RawRecord) : List CleanRecord :=
  (drop_duplicates rs).map (fun r => ⟨r.raw_text, cleanTextFn r.raw_text⟩)

/-! ### classify_complaints -/

/-- Hostel keyword list of `classify_text`. -/
def hostelKeywords : List String :=
  ["hostel", "room", "fan", "water", "washroom", "leak", "roommate"]

/-- Mess keyword list of `classify_text`. -/
def messKeywords : List String := ["mess", "food", "chicken", "quality"]

/-- Academics keyword list of `classify_text`. -/
def academicsKeywords : List String := ["grade", "course", "portal", "registration"]

/-- Administration keyword list of `classify_text`. -/
def adminKeywords : List String := ["staff", "administration", "office", "fees"]

/-- `classify_text` inside `classify_complaints`; the unmatched branch is the
weighted draw `np.random.choice(self.categories, p=[0.35, 0.35, 0.15, 0.15])`,
supplied here as `draw`. -/
def classify_text (draw : Category) (text : String) : String :=
  let t := pyLower text
  if anyKeyword t hostelKeywords then "Hostel"
  else if anyKeyword t messKeywords then "Mess"
  else if anyKeyword t academicsKeywords then "Academics"
  else if anyKeyword t adminKeywords then "Administration"
  else draw.toName

/-- Map with the row position available, starting the count at `n`. -/
def mapIdxFrom (f : Nat → α → β) : Nat → List α → List β
  | _, [] => []
  | n, a :: as => f n a :: mapIdxFrom f (n + 1) as

/-- `GrievanceSummarizer.classify_complaints`: apply `classify_text` to the
`clean_text` column, consuming one category draw per unmatched row (indexed
here by row position). -/
def classify_complaints (o : Oracle) (recs : List CleanRecord) : List ClassifiedRecord :=
  mapIdxFrom
    (fun i r => ⟨r.raw_text, r.clean_text, classify_text (o.categoryDraw i) r.clean_text⟩)
    0 recs

/-! ### analyze_sentiment -/

/-- `get_sentiment` in `analyze_sentiment`, used when the transformers
pipeline loaded: empty text gives `Neutral`; otherwise the model is called on
`text[:250]` and its label capitalized; any exception gives `Neutral`. -/
def get_sentiment (f : String → Option String) (text : String) : String :=
  if text == "" then "Neutral"
  else
    match f (strTake text 250) with
    | some label => pyCapitalize label
    | none => "Neutral"

/-- `GrievanceSummarizer.analyze_sentiment`: with a loaded pipeline, sentiment
comes from `get_sentiment` per row; without one, it is a per-row random draw
(`np.random.choice(['Negative','Neutral','Positive'], size=len(df))`).
Urgency is a per-row random draw in both cases. -/
def analyze_sentiment (pipeline : Option (String → Option String)) (o : Oracle)
    (recs : List ClassifiedRecord) : List AnalyzedRecord :=
  mapIdxFrom
    (fun i r =>
      { raw_text := r.raw_text
        clean_text := r.clean_text
        category := r.category
        sentiment :=
          match pipeline with
          | some f => get_sentiment f r.clean_text
          | none => (o.sentimentDraw i).toName
        urgency := (o.urgencyDraw i).toName })
    0 recs

/-! ### Tokenization, Counter and most_common -/

/-- A regex `\w` character: alphanumeric or underscore (ASCII). -/
def wordChar (c : Char) : Bool := c.isAlphanum || c == '_'

/-- Worker for `re.findall(r'\b\w+\b', ...)`: collect maximal runs of word
characters; `acc` holds the current run reversed. -/
def tokensAux : List Char → List Char → List String
  | [], acc => if acc.isEmpty then [] else [String.mk acc.reverse]
  | c :: cs, acc =>
    if wordChar c then tokensAux cs (c :: acc)
    else if acc.isEmpty then tokensAux cs acc
    else String.mk acc.reverse :: tokensAux cs []

/-- `GrievanceSummarizer._tokenize`: lowercase, then split into maximal runs
of word characters. -/
def tokenizeText (s : String) : List String := tokensAux (pyLower s).data []

/-- `self.stopwords` of the source. -/
def stopwords : List String :=
  ["i", "me", "my", "myself", "we", "our", "ours", "ourselves", "you", "your",
   "yours", "yourself", "yourselves", "he", "him", "his", "himself", "she",
   "her", "hers", "herself", "it", "its", "itself", "they", "them", "their",
   "theirs", "themselves", "what", "which", "who", "whom", "this", "that",
   "these", "those", "am", "is", "are", "was", "were", "be", "been", "being",
   "have", "has", "had", "having", "do", "does", "did", "doing", "a", "an",
   "the", "and", "but", "if", "or", "because", "as", "until", "while", "of",
   "at", "by", "for", "with", "through", "during", "before", "after", "above",
   "below", "up", "down", "in", "out", "on", "off", "over", "under", "again",
   "further", "then", "once", "to"]

/-- Python `str.isalnum()`: nonempty and every char alphanumeric. -/
def isAlnumStr (w : String) : Bool := !w.data.isEmpty && w.data.all Char.isAlphanum

/-- The filter of `extract_trends`:
`w.isalnum() and w not in self.stopwords and len(w) > 2`. -/
def keepToken (w : String) : Bool :=
  isAlnumStr w && !(stopwords.contains w) && decide (2 < w.length)

/-- The stopword-and-length-filtered token stream of the space-joined texts. -/
def filteredTokens (texts : List String) : List String :=
  (tokenizeText (joinSpace texts)).filter keepToken

/-- One step of `collections.Counter`: bump the count of `w`, keeping
first-insertion order of the keys. -/
def counterAdd (w : String) : List (String × Nat) → List (String × Nat)
  | [] => [(w, 1)]
  | (x, n) :: rest => if x == w then (x, n + 1) :: rest else (x, n) :: counterAdd w rest

/-- `collections.Counter(ws)` as an association list in first-occurrence key
order. -/
def counterList (ws : List String) : List (String × Nat) :=
  ws.foldl (fun acc w => counterAdd w acc) []

/-- Insert into a count-descending list, after every entry of strictly larger
count and before every entry of smaller-or-equal count (so that, used by
`sortDesc`, earlier entries win ties — the stability Python's
`Counter.most_common` has). -/
def insertDesc (p : String × Nat) : List (String × Nat) → List (String × Nat)
  | [] => [p]
  | q :: qs => if q.2 ≤ p.2 then p :: q :: qs else q :: insertDesc p qs

/-- Stable sort by descending count (the order `Counter.most_common` and
pandas `value_counts` return). -/
def sortDesc (l : List (String × Nat)) : List (String × Nat) := l.foldr insertDesc []

/-- `df[col].value_counts()` on a string column: counts in descending order,
ties in first-occurrence order. -/
def value_counts (col : List String) : List (String × Nat) := sortDesc (counterList col)

/-! ### extract_trends and the fallback summary -/

/-- `word_freq.most_common(3)` over the filtered tokens. -/
def top_words (texts : List String) : List (String × Nat) :=
  (sortDesc (counterList (filteredTokens texts))).take 3

/-- The phrase rendering of `extract_trends`. -/
def renderIssue (w : String) (c : Nat) : String :=
  "Frequent topic: \"" ++ pyCapitalize w ++ "\" (mentioned " ++ toString c ++ " times)"

/-- `GrievanceSummarizer._generate_fallback_summary`. -/
def fallbackSummary (recs : List AnalyzedRecord) : String :=
  let counts := value_counts (recs.map AnalyzedRecord.category)
  let topCategory := match counts with | [] => "general" | p :: _ => p.1
  "Analysis of " ++ toString recs.length ++ " complaints shows primary concerns in " ++
    pyLower topCategory ++
    " category. Key issues include maintenance, quality control, and service delivery. " ++
    "Immediate attention required for high-priority complaints."

/-- The pair `extract_trends` returns. -/
structure Trends where
  top_recurring_issues : List String
  weekly_summary : String
  deriving DecidableEq, Repr

/-- `GrievanceSummarizer.extract_trends`: top recurring issues from token
frequencies, and the weekly summary — the external summarizer is consulted
only when it is present and the joined clean text is longer than 50
characters; on its failure, and in every other case, the template fallback is
used. -/
def extract_trends (summarizer : Option (String → Option String))
    (recs : List AnalyzedRecord) : Trends :=
  let texts := recs.map AnalyzedRecord.clean_text
  let recurring := (top_words texts).map (fun p => renderIssue p.1 p.2)
  let combined := joinSpace texts
  let summary :=
    match summarizer with
    | some f =>
      if 50 < combined.length then
        match f (strTake combined 2000) with
        | some s => s
        | none => fallbackSummary recs
      else fallbackSummary recs
    | none => fallbackSummary recs
  ⟨recurring, summary⟩

/-! ### process_complaints -/

/-- The dashboard payload `process_complaints` assembles. -/
structure Dashboard where
  total_complaints : Nat
  complaint_volume_by_category : List (String × Nat)
  sentiment_overview : List (String × Nat)
  urgency_distribution : List (String × Nat)
  weekly_summary : String
  top_recurring_issues : List String
  processed_complaints : List AnalyzedRecord
  deriving DecidableEq, Repr

/-- The stage sequence of `process_complaints` after data loading. -/
def runPipeline (pipeline summarizer : Option (String → Option String))
    (o : Oracle) (rs : List RawRecord) : Dashboard :=
  let cleaned := clean_data rs
  let classified := classify_complaints o cleaned
  let analyzed := analyze_sentiment pipeline o classified
  let trends := extract_trends summarizer analyzed
  { total_complaints := analyzed.length
    complaint_volume_by_category := value_counts (analyzed.map AnalyzedRecord.category)
    sentiment_overview := value_counts (analyzed.map AnalyzedRecord.sentiment)
    urgency_distribution := value_counts (analyzed.map AnalyzedRecord.urgency)
    weekly_summary := trends.weekly_summary
    top_recurring_issues := trends.top_recurring_issues
    processed_complaints := analyzed }

/-- The `try` block of `process_complaints` in data mode (`file_path=None`):
`data=None` and `data=[]` both fail the `elif data:` truthiness test and
raise `ValueError`. -/
def processTry (pipeline summarizer : Option (String → Option String))
    (o : Oracle) (data : Option (List RawRecord)) : Except String Dashboard :=
  match data with
  | none => Except.error "Either data or file_path must be provided"
  | some [] => Except.error "Either data or file_path must be provided"
  | some (r :: rs) => Except.ok (runPipeline pipeline summarizer o (r :: rs))

/-- `GrievanceSummarizer.process_complaints` (data mode): the surrounding
`except Exception` turns any error into `None`. -/
def process_complaints (pipeline summarizer : Option (String → Option String))
    (o : Oracle) (data : Option (List RawRecord)) : Option Dashboard :=
  (processTry pipeline summarizer o data).toOption

/-- Sum of the counts of a counter/value_counts association list. -/
def sumCounts (l : List (String × Nat)) : Nat := (l.map Prod.snd).sum

/-- First-occurrence deduplication of a token stream (the key order
`collections.Counter` keeps). -/
def dedupFirst (ws : List String) : List String :=
  ws.foldl (fun a w => if a.contains w then a else a ++ [w]) []

/-- Count held by a counter association list for key `w` (0 when absent). -/
def getCount : List (String × Nat) → String → Nat
  | [], _ => 0
  | (x, n) :: rest, w => if x == w then n else getCount rest w

/-- No category keyword of any of the four rule rows occurs in the text. -/
def matchesNoCategoryKeyword (text : String) : Bool :=
  !(anyKeyword (pyLower text) hostelKeywords || anyKeyword (pyLower text) messKeywords ||
    anyKeyword (pyLower text) academicsKeywords || anyKeyword (pyLower text) adminKeywords)

/-! ### Lemmas about mapIdxFrom -/

theorem length_mapIdxFrom (f : Nat → α → β) : ∀ (n : Nat) (l : List α),
    (mapIdxFrom f n l).length = l.length := by
  intro n l
  induction l generalizing n with
  | nil => rfl
  | cons a as ih => simp [mapIdxFrom, ih]

theorem map_mapIdxFrom (f : Nat → α → β) (g : β → γ) (h : α → γ)
    (hfg : ∀ i a, g (f i a) = h a) : ∀ (n : Nat) (l : List α),
    (mapIdxFrom f n l).map g = l.map h := by
  intro n l
  induction l generalizing n with
  | nil => rfl
  | cons a as ih => simp [mapIdxFrom, hfg, ih]

theorem getD_mapIdxFrom (f : Nat → α → β) (d : β) (d0 : α) :
    ∀ (l : List α) (n i : Nat), i < l.length →
    (mapIdxFrom f n l).getD i d = f (n + i) (l.getD i d0) := by
  intro l
  induction l with
  | nil => intro n i h; exact absurd h (Nat.not_lt_zero i)
  | cons a as ih =>
    intro n i h
    cases i with
    | zero => simp [mapIdxFrom]
    | succ j =>
      have hj : j < as.length := Nat.lt_of_succ_lt_succ h
      have ihj := ih (n + 1) j hj
      simp only [mapIdxFrom, List.getD_cons_succ]
      rw [ihj]
      congr 1
      omega

/-! ### Lemmas about drop_duplicates -/

theorem dropDupAux_sublist : ∀ (seen : List (Option String)) (rs : List RawRecord),
    (dropDupAux seen rs).Sublist rs := by
  intro seen rs
  induction rs generalizing seen with
  | nil => simp [dropDupAux]
  | cons r rest ih =>
    simp only [dropDupAux]
    split
    · exact (ih seen).cons r
    · exact (ih (r.raw_text :: seen)).cons₂ r

theorem mem_dropDupAux_not_seen : ∀ (seen : List (Option String)) (rs : List RawRecord)
    (r' : RawRecord), r' ∈ dropDupAux seen rs → seen.contains r'.raw_text = false := by
  intro seen rs
  induction rs generalizing seen with
  | nil =>
    intro r' h
    simp only [dropDupAux] at h
    exact absurd h (List.not_mem_nil r')
  | cons r rest ih =>
    intro r' h
    simp only [dropDupAux] at h
    split at h
    · exact ih seen r' h
    · rename_i hc
      rcases List.mem_cons.mp h with h1 | h2
      · subst h1
        exact Bool.of_not_eq_true hc
      · have := ih (r.raw_text :: seen) r' h2
        simp only [List.contains_cons, Bool.or_eq_false_iff] at this
        exact this.2

theorem dropDupAux_pairwise : ∀ (seen : List (Option String)) (rs : List RawRecord),
    ((dropDupAux seen rs).map RawRecord.raw_text).Pairwise (fun a b => a ≠ b) := by
  intro seen rs
  induction rs generalizing seen with
  | nil => simp [dropDupAux]
  | cons r rest ih =>
    simp only [dropDupAux]
    split
    · exact ih seen
    · refine List.pairwise_cons.mpr ⟨?_, ih (r.raw_text :: seen)⟩
      intro y hy hcontra
      rcases List.mem_map.mp hy with ⟨x, hx, hxy⟩
      have hns := mem_dropDupAux_not_seen (r.raw_text :: seen) rest x hx
      simp only [List.contains_cons, Bool.or_eq_false_iff] at hns
      have hne : x.raw_text ≠ r.raw_text := beq_eq_false_iff_ne.mp hns.1
      exact hne (hxy.trans hcontra.symm)

theorem dropDupAux_complete : ∀ (seen : List (Option String)) (rs : List RawRecord)
    (r : RawRecord), r ∈ rs →
    seen.contains r.raw_text = true ∨
      r.raw_text ∈ (dropDupAux seen rs).map RawRecord.raw_text := by
  intro seen rs
  induction rs generalizing seen with
  | nil => intro r h; simp at h
  | cons r0 rest ih =>
    intro r h
    simp only [dropDupAux]
    rcases List.mem_cons.mp h with h1 | h2
    · subst h1
      by_cases hc : seen.contains r.raw_text = true
      · exact Or.inl hc
      · right
        rw [if_neg (by simpa using hc)]
        simp
    · by_cases hc : seen.contains r0.raw_text = true
      · rw [if_pos hc]
        exact ih seen r h2
      · rw [if_neg (by simpa using hc)]
        rcases ih (r0.raw_text :: seen) r h2 with h3 | h3
        · simp only [List.contains_cons, Bool.or_eq_true] at h3
          rcases h3 with h4 | h4
          · right
            have heq : r.raw_text = r0.raw_text := eq_of_beq h4
            simp [heq]
          · left; exact h4
        · right; simp [h3]

theorem dropDupAux_first_seen : ∀ (seen : List (Option String)) (rs : List RawRecord)
    (r' : RawRecord), r' ∈ dropDupAux seen rs →
    rs.find? (fun r => r.raw_text == r'.raw_text) = some r' := by
  intro seen rs
  induction rs generalizing seen with
  | nil =>
    intro r' h
    simp only [dropDupAux] at h
    exact absurd h (List.not_mem_nil r')
  | cons r0 rest ih =>
    intro r' h
    simp only [dropDupAux] at h
    split at h
    · rename_i hc
      have hns := mem_dropDupAux_not_seen seen rest r' h
      have hne : (r0.raw_text == r'.raw_text) = false := by
        refine beq_eq_false_iff_ne.mpr ?_
        intro heq
        rw [heq] at hc
        rw [hns] at hc
        simp at hc
      rw [List.find?_cons_of_neg _ (by simp [hne]), ih seen r' h]
    · rcases List.mem_cons.mp h with h1 | h2
      · subst h1
        exact List.find?_cons_of_pos _ (by simp)
      · have hns := mem_dropDupAux_not_seen (r0.raw_text :: seen) rest r' h2
        simp only [List.contains_cons, Bool.or_eq_false_iff] at hns
        have hne : (r0.raw_text == r'.raw_text) = false := by
          refine beq_eq_false_iff_ne.mpr ?_
          intro heq
          have := beq_eq_false_iff_ne.mp hns.1
          exact this heq.symm
        rw [List.find?_cons_of_neg _ (by simp [hne]), ih (r0.raw_text :: seen) r' h2]

/-! ### Lemmas about counterList -/

theorem getCount_counterAdd_self (w : String) : ∀ l : List (String × Nat),
    getCount (counterAdd w l) w = getCount l w + 1 := by
  intro l
  induction l with
  | nil => simp [counterAdd, getCount]
  | cons p rest ih =>
    obtain ⟨x, n⟩ := p
    by_cases hx : (x == w) = true
    · simp [counterAdd, getCount, hx]
    · simp only [counterAdd, getCount, Bool.not_eq_true] at hx ⊢
      rw [if_neg (by simp [hx]), if_neg (by simp [hx])]
      simp [getCount, hx, ih]

theorem getCount_counterAdd_ne (w x : String) (hne : (x == w) = false) :
    ∀ l : List (String × Nat), getCount (counterAdd w l) x = getCount l x := by
  intro l
  induction l with
  | nil =>
    have hwx : (w == x) = false :=
      beq_eq_false_iff_ne.mpr fun hc => (beq_eq_false_iff_ne.mp hne) hc.symm
    simp [counterAdd, getCount, hwx]
  | cons p rest ih =>
    obtain ⟨y, n⟩ := p
    by_cases hy : (y == w) = true
    · have hyx : (y == x) = false := by
        have h1 : y = w := eq_of_beq hy
        have h2 : x ≠ w := beq_eq_false_iff_ne.mp hne
        refine beq_eq_false_iff_ne.mpr ?_
        rw [h1]
        exact fun hc => h2 hc.symm
      simp [counterAdd, getCount, hy, hyx]
    · simp only [Bool.not_eq_true] at hy
      simp only [counterAdd, getCount]
      rw [if_neg (by simp [hy])]
      by_cases hyx : (y == x) = true
      · simp [getCount, hyx]
      · simp only [Bool.not_eq_true] at hyx
        simp [getCount, hyx, ih]

theorem sumCounts_counterAdd (w : String) : ∀ l : List (String × Nat),
    sumCounts (counterAdd w l) = sumCounts l + 1 := by
  intro l
  induction l with
  | nil => simp [counterAdd, sumCounts]
  | cons p rest ih =>
    obtain ⟨x, n⟩ := p
    by_cases hx : (x == w) = true
    · simp [counterAdd, sumCounts, hx]
      omega
    · simp only [Bool.not_eq_true] at hx
      simp only [counterAdd]
      rw [if_neg (by simp [hx])]
      simp only [sumCounts, List.map_cons, List.sum_cons] at ih ⊢
      omega

theorem sumCounts_foldl_counterAdd : ∀ (ws : List String) (acc : List (String × Nat)),
    sumCounts (ws.foldl (fun a w => counterAdd w a) acc) = sumCounts acc + ws.length := by
  intro ws
  induction ws with
  | nil => intro acc; simp
  | cons w rest ih =>
    intro acc
    simp only [List.foldl_cons, List.length_cons]
    rw [ih (counterAdd w acc), sumCounts_counterAdd]
    omega

theorem sumCounts_counterList (ws : List String) : sumCounts (counterList ws) = ws.length := by
  have := sumCounts_foldl_counterAdd ws []
  simpa [counterList, sumCounts] using this

theorem getCount_foldl_counterAdd : ∀ (ws : List String) (acc : List (String × Nat))
    (x : String), getCount (ws.foldl (fun a w => counterAdd w a) acc) x
      = getCount acc x + ws.count x := by
  intro ws
  induction ws with
  | nil => intro acc x; simp
  | cons w rest ih =>
    intro acc x
    simp only [List.foldl_cons]
    rw [ih (counterAdd w acc) x]
    by_cases hx : (w == x) = true
    · have hxw : x = w := (eq_of_beq hx).symm
      rw [hxw, getCount_counterAdd_self]
      simp [List.count_cons]
      omega
    · simp only [Bool.not_eq_true] at hx
      have hxw : (x == w) = false := by
        refine beq_eq_false_iff_ne.mpr ?_
        intro hc
        exact absurd (beq_iff_eq.mpr hc.symm) (by simp [hx])
      rw [getCount_counterAdd_ne w x hxw]
      simp [List.count_cons, hx]

theorem getCount_counterList (ws : List String) (x : String) :
    getCount (counterList ws) x = ws.count x := by
  have := getCount_foldl_counterAdd ws [] x
  simpa [counterList, getCount] using this

theorem keys_counterAdd (w : String) : ∀ l : List (String × Nat),
    (counterAdd w l).map Prod.fst
      = if (l.map Prod.fst).contains w then l.map Prod.fst else l.map Prod.fst ++ [w] := by
  intro l
  induction l with
  | nil => simp [counterAdd]
  | cons p rest ih =>
    obtain ⟨x, n⟩ := p
    by_cases hx : (x == w) = true
    · simp [counterAdd, hx, List.contains_cons, eq_of_beq hx]
    · simp only [Bool.not_eq_true] at hx
      simp only [counterAdd]
      rw [if_neg (by simp [hx])]
      simp only [List.map_cons, List.contains_cons, ih]
      have hwx : (w == x) = false := by
        refine beq_eq_false_iff_ne.mpr ?_
        intro hc
        exact absurd (beq_iff_eq.mpr hc.symm) (by simp [hx])
      rw [hwx, Bool.false_or]
      by_cases hmem : ((rest.map Prod.fst).contains w) = true
      · rw [if_pos hmem, if_pos hmem]
      · rw [if_neg hmem, if_neg hmem]
        simp

theorem keys_foldl_counterAdd : ∀ (ws : List String) (acc : List (String × Nat)),
    (ws.foldl (fun a w => counterAdd w a) acc).map Prod.fst
      = ws.foldl (fun a w => if a.contains w then a else a ++ [w]) (acc.map Prod.fst) := by
  intro ws
  induction ws with
  | nil => intro acc; simp
  | cons w rest ih =>
    intro acc
    simp only [List.foldl_cons]
    rw [ih (counterAdd w acc), keys_counterAdd]

theorem keys_counterList (ws : List String) :
    (counterList ws).map Prod.fst = dedupFirst ws := by
  have := keys_foldl_counterAdd ws []
  simpa [counterList, dedupFirst] using this

theorem keysNodup_counterAdd (w : String) : ∀ l : List (String × Nat),
    (l.map Prod.fst).Nodup → ((counterAdd w l).map Prod.fst).Nodup := by
  intro l h
  rw [keys_counterAdd]
  by_cases hc : ((l.map Prod.fst).contains w) = true
  · rw [if_pos hc]; exact h
  · rw [if_neg hc]
    simp only [Bool.not_eq_true] at hc
    have hnm : w ∉ l.map Prod.fst := by
      intro hm
      have he : (l.map Prod.fst).elem w = true := List.elem_eq_true_of_mem hm
      exact Bool.false_ne_true (hc.symm.trans he)
    have hdisj : List.Disjoint (l.map Prod.fst) [w] := by
      intro a ha hb
      have hab : a = w := by simpa using hb
      subst hab
      exact hnm ha
    exact h.append (List.nodup_singleton w) hdisj

theorem keysNodup_counterList (ws : List String) : ((counterList ws).map Prod.fst).Nodup := by
  suffices h : ∀ (ws : List String) (acc : List (String × Nat)), (acc.map Prod.fst).Nodup →
      ((ws.foldl (fun a w => counterAdd w a) acc).map Prod.fst).Nodup by
    exact h ws [] (by simp)
  intro ws
  induction ws with
  | nil => intro acc h; simpa using h
  | cons w rest ih =>
    intro acc h
    simp only [List.foldl_cons]
    exact ih (counterAdd w acc) (keysNodup_counterAdd w acc h)

theorem mem_getCount_of_keysNodup : ∀ (l : List (String × Nat)),
    (l.map Prod.fst).Nodup → ∀ p ∈ l, getCount l p.1 = p.2 := by
  intro l
  induction l with
  | nil => intro _ p hp; simp at hp
  | cons q rest ih =>
    intro h p hp
    obtain ⟨x, n⟩ := q
    simp only [List.map_cons, List.nodup_cons] at h
    rcases List.mem_cons.mp hp with h1 | h2
    · subst h1
      simp [getCount]
    · have hx : (x == p.1) = false := by
        refine beq_eq_false_iff_ne.mpr ?_
        intro hc
        exact h.1 (hc ▸ List.mem_map_of_mem Prod.fst h2)
      simp only [getCount]
      rw [if_neg (by simp at hx ⊢; exact hx)]
      exact ih h.2 p h2

theorem mem_counterList_count (ws : List String) (p : String × Nat)
    (hp : p ∈ counterList ws) : p.2 = ws.count p.1 := by
  have h1 := mem_getCount_of_keysNodup (counterList ws) (keysNodup_counterList ws) p hp
  rw [← h1, getCount_counterList]

/-! ### Lemmas about sortDesc -/

theorem insertDesc_perm (p : String × Nat) : ∀ l : List (String × Nat),
    (insertDesc p l).Perm (p :: l) := by
  intro l
  induction l with
  | nil => simp [insertDesc]
  | cons q qs ih =>
    simp only [insertDesc]
    split
    · exact List.Perm.refl _
    · exact (ih.cons q).trans (List.Perm.swap p q qs)

theorem sortDesc_perm : ∀ l : List (String × Nat), (sortDesc l).Perm l := by
  intro l
  induction l with
  | nil => simp [sortDesc]
  | cons x xs ih =>
    simp only [sortDesc, List.foldr_cons]
    exact (insertDesc_perm x _).trans (ih.cons x)

theorem insertDesc_sorted (p : String × Nat) : ∀ l : List (String × Nat),
    l.Pairwise (fun a b => b.2 ≤ a.2) → (insertDesc p l).Pairwise (fun a b => b.2 ≤ a.2) := by
  intro l
  induction l with
  | nil => intro _; simp [insertDesc]
  | cons q qs ih =>
    intro h
    rcases List.pairwise_cons.mp h with ⟨hq, hqs⟩
    simp only [insertDesc]
    split
    · rename_i hle
      refine List.pairwise_cons.mpr ⟨?_, h⟩
      intro b hb
      rcases List.mem_cons.mp hb with h1 | h2
      · subst h1; exact hle
      · exact Nat.le_trans (hq b h2) hle
    · rename_i hgt
      refine List.pairwise_cons.mpr ⟨?_, ih hqs⟩
      intro b hb
      have hb2 := (insertDesc_perm p qs).mem_iff.mp hb
      rcases List.mem_cons.mp hb2 with h1 | h2
      · subst h1
        exact Nat.le_of_lt (Nat.lt_of_not_le hgt)
      · exact hq b h2

theorem sortDesc_sorted : ∀ l : List (String × Nat),
    (sortDesc l).Pairwise (fun a b => b.2 ≤ a.2) := by
  intro l
  induction l with
  | nil => simp [sortDesc]
  | cons x xs ih =>
    simp only [sortDesc, List.foldr_cons]
    exact insertDesc_sorted x _ ih

theorem filter_insertDesc (p : String × Nat) (c : Nat) : ∀ l : List (String × Nat),
    (insertDesc p l).filter (fun q => q.2 == c)
      = if (p.2 == c) = true then p :: l.filter (fun q => q.2 == c)
        else l.filter (fun q => q.2 == c) := by
  intro l
  induction l with
  | nil =>
    by_cases hp : (p.2 == c) = true
    · simp [insertDesc, List.filter, hp]
    · simp only [Bool.not_eq_true] at hp
      simp [insertDesc, List.filter, hp]
  | cons q qs ih =>
    simp only [insertDesc]
    split
    · rename_i hle
      by_cases hp : (p.2 == c) = true
      · simp [List.filter_cons, hp]
      · simp only [Bool.not_eq_true] at hp
        simp [List.filter_cons, hp]
    · rename_i hgt
      have hlt : c < q.2 → True := fun _ => trivial
      by_cases hp : (p.2 == c) = true
      · have hqc : (q.2 == c) = false := by
          refine beq_eq_false_iff_ne.mpr ?_
          intro hc
          have hpc : p.2 = c := beq_iff_eq.mp hp
          exact hgt (by omega)
        simp only [List.filter_cons, hqc, ih, hp, if_pos]
        simp [hqc]
      · simp only [Bool.not_eq_true] at hp
        by_cases hqc : (q.2 == c) = true
        · simp [List.filter_cons, hqc, ih, hp]
        · simp only [Bool.not_eq_true] at hqc
          simp [List.filter_cons, hqc, ih, hp]

theorem sortDesc_filter_stable : ∀ (l : List (String × Nat)) (c : Nat),
    (sortDesc l).filter (fun q => q.2 == c) = l.filter (fun q => q.2 == c) := by
  intro l
  induction l with
  | nil => intro c; simp [sortDesc]
  | cons x xs ih =>
    intro c
    simp only [sortDesc, List.foldr_cons] at ih ⊢
    rw [filter_insertDesc, List.filter_cons]
    by_cases hx : (x.2 == c) = true
    · simp [hx, ih]
    · simp only [Bool.not_eq_true] at hx
      simp [hx, ih]

theorem sumCounts_sortDesc (l : List (String × Nat)) : sumCounts (sortDesc l) = sumCounts l := by
  unfold sumCounts
  exact ((sortDesc_perm l).map Prod.snd).sum_eq

theorem sumCounts_value_counts (col : List String) :
    sumCounts (value_counts col) = col.length := by
  rw [value_counts, sumCounts_sortDesc, sumCounts_counterList]

/-! ### Length and projection lemmas for the pipeline stages -/

theorem length_classify_complaints (o : Oracle) (recs : List CleanRecord) :
    (classify_complaints o recs).length = recs.length :=
  length_mapIdxFrom _ 0 recs

theorem length_analyze_sentiment (pipeline : Option (String → Option String)) (o : Oracle)
    (recs : List ClassifiedRecord) :
    (analyze_sentiment pipeline o recs).length = recs.length :=
  length_mapIdxFrom _ 0 recs

theorem map_clean_classify (o : Oracle) (recs : List CleanRecord) :
    (classify_complaints o recs).map ClassifiedRecord.clean_text
      = recs.map CleanRecord.clean_text := by
  unfold classify_complaints
  exact map_mapIdxFrom _ ClassifiedRecord.clean_text CleanRecord.clean_text
    (fun _ _ => rfl) 0 recs

theorem map_clean_analyze (pipeline : Option (String → Option String)) (o : Oracle)
    (recs : List ClassifiedRecord) :
    (analyze_sentiment pipeline o recs).map AnalyzedRecord.clean_text
      = recs.map ClassifiedRecord.clean_text := by
  unfold analyze_sentiment
  exact map_mapIdxFrom _ AnalyzedRecord.clean_text ClassifiedRecord.clean_text
    (fun _ _ => rfl) 0 recs

/-! ### Concrete fixtures used by witnesses and counterexamples -/

/-- A concrete draw stream: Hostel / Negative / High at every position. -/
def oracleA : Oracle :=
  ⟨fun _ => Category.hostel, fun _ => Sentiment.negative, fun _ => Urgency.high⟩

/-- A concrete draw stream: Mess / Neutral / Low at every position. -/
def oracleB : Oracle :=
  ⟨fun _ => Category.mess, fun _ => Sentiment.neutral, fun _ => Urgency.low⟩

/-- A batch with a duplicated `raw_text` and a missing one. -/
def rs5 : List RawRecord := [⟨some " A "⟩, ⟨some " A "⟩, ⟨none⟩]

/-- The trend-ranking example batch of the spec. -/
def recs6 : List AnalyzedRecord :=
  [⟨some "water leak water leak", "water leak water leak", "Hostel", "Negative", "High"⟩,
   ⟨some "leak issue", "leak issue", "Hostel", "Negative", "High"⟩]

/-- An always-available external summarizer stub. -/
def sumEx : Option (String → Option String) := some (fun _ => some "EXTERNAL SUMMARY")

/-! ### Claims -/

/-- C3: `classify_text` evaluates the keyword rows in fixed priority order with
first match winning, so any text containing a Hostel keyword — in particular a
text containing both a Hostel and a Mess keyword — is assigned `Hostel`,
whatever the fallback draw would have been. -/
theorem C3_categorize_priority (draw : Category) (text : String)
    (hh : anyKeyword (pyLower text) hostelKeywords = true)
    (hm : anyKeyword (pyLower text) messKeywords = true) :
    classify_text draw text = "Hostel" := by
  unfold classify_text
  simp [hh]

/-- C3 witness: the spec's own example text. -/
theorem C3_witness :
    anyKeyword (pyLower "hostel mess food issue") hostelKeywords = true
  ∧ anyKeyword (pyLower "hostel mess food issue") messKeywords = true
  ∧ classify_text Category.academics "hostel mess food issue" = "Hostel" :=
  ⟨by decide, by decide,
    C3_categorize_priority Category.academics "hostel mess food issue" (by decide) (by decide)⟩

/-- C4 counterexample: on a keyword-free text the code does not return a
stable `Hostel` default; with the random draw landing on Mess, the assigned
category is `Mess`. -/
theorem C4_counterexample :
    matchesNoCategoryKeyword "xyz" = true ∧ classify_text Category.mess "xyz" ≠ "Hostel" := by
  constructor
  · decide
  · decide

/-- C4 amended: on a keyword-free `clean_text` the category is the weighted
random draw (`np.random.choice` over the four categories), hence always one of
the four category labels but not a fixed default. -/
theorem C4_default_is_random_draw (draw : Category) (text : String)
    (h : matchesNoCategoryKeyword text = true) :
    classify_text draw text = draw.toName
  ∧ draw.toName ∈ ["Hostel", "Mess", "Academics", "Administration"] := by
  have h0 : (anyKeyword (pyLower text) hostelKeywords
      || anyKeyword (pyLower text) messKeywords
      || anyKeyword (pyLower text) academicsKeywords
      || anyKeyword (pyLower text) adminKeywords) = false := by
    cases hcase : (anyKeyword (pyLower text) hostelKeywords
        || anyKeyword (pyLower text) messKeywords
        || anyKeyword (pyLower text) academicsKeywords
        || anyKeyword (pyLower text) adminKeywords) with
    | false => rfl
    | true =>
      exfalso
      unfold matchesNoCategoryKeyword at h
      rw [hcase] at h
      simp at h
  simp only [Bool.or_eq_false_iff] at h0
  obtain ⟨⟨⟨h1, h2⟩, h3⟩, h4⟩ := h0
  constructor
  · unfold classify_text
    rw [if_neg (by simp [h1]), if_neg (by simp [h2]), if_neg (by simp [h3]),
      if_neg (by simp [h4])]
  · cases draw <;> simp [Category.toName]

/-- C4 witness: the amended claim at a concrete keyword-free text. -/
theorem C4_witness :
    matchesNoCategoryKeyword "zzz" = true
  ∧ classify_text Category.academics "zzz" = Category.toName Category.academics
  ∧ Category.toName Category.academics ∈ ["Hostel", "Mess", "Academics", "Administration"] :=
  ⟨by decide, (C4_default_is_random_draw Category.academics "zzz" (by decide)).1,
    (C4_default_is_random_draw Category.academics "zzz" (by decide)).2⟩

/-- C5: `clean_data` keeps only the first-seen record per distinct `raw_text`
value (exact equality before normalization), preserves the original relative
order of survivors, maps a missing/null `raw_text` to the empty string, and
sets `clean_text` to the lowercased, whitespace-stripped `raw_text`. -/
theorem C5_clean_data_normalization (rs : List RawRecord) :
    ((clean_data rs).map CleanRecord.raw_text).Sublist (rs.map RawRecord.raw_text)
  ∧ ((clean_data rs).map CleanRecord.raw_text).Pairwise (fun a b => a ≠ b)
  ∧ (∀ r ∈ rs, r.raw_text ∈ (clean_data rs).map CleanRecord.raw_text)
  ∧ (∀ c ∈ clean_data rs,
      rs.find? (fun r => r.raw_text == c.raw_text) = some ⟨c.raw_text⟩)
  ∧ (∀ c ∈ clean_data rs, c.clean_text = cleanTextFn c.raw_text)
  ∧ cleanTextFn none = ""
  ∧ (∀ s, cleanTextFn (some s) = pyStrip (pyLower s)) := by
  have hmap : (clean_data rs).map CleanRecord.raw_text
      = (drop_duplicates rs).map RawRecord.raw_text := by
    simp only [clean_data, List.map_map]
    rfl
  refine ⟨?_, ?_, ?_, ?_, ?_, rfl, fun s => rfl⟩
  · rw [hmap]
    exact (dropDupAux_sublist [] rs).map RawRecord.raw_text
  · rw [hmap]
    exact dropDupAux_pairwise [] rs
  · intro r hr
    rw [hmap]
    rcases dropDupAux_complete [] rs r hr with hc | hc
    · simp [List.contains] at hc
    · exact hc
  · intro c hc
    rcases List.mem_map.mp hc with ⟨r, hr, hrc⟩
    have hfind := dropDupAux_first_seen [] rs r hr
    have hraw : c.raw_text = r.raw_text := by rw [← hrc]
    rw [hraw]
    exact hfind
  · intro c hc
    rcases List.mem_map.mp hc with ⟨r, _, hrc⟩
    rw [← hrc]

/-- C5 witness: on a batch with a duplicate and a missing `raw_text`, the
surviving value is present and the first occurrence is the one found. -/
theorem C5_witness :
    (some " A ") ∈ (clean_data rs5).map CleanRecord.raw_text
  ∧ rs5.find? (fun r => r.raw_text == some " A ") = some ⟨some " A "⟩ := by
  refine ⟨(C5_clean_data_normalization rs5).2.2.1 ⟨some " A "⟩ (by decide), ?_⟩
  have h := (C5_clean_data_normalization rs5).2.2.2.1 ⟨some " A ", "a"⟩ (by decide)
  exact h

/-- C2 counterexample: a batch with one record whose text normalizes to empty
is not rejected — the pipeline returns a summary counting that record. -/
theorem C2_counterexample :
    (process_complaints none none oracleB (some [⟨some ""⟩])).map Dashboard.total_complaints
      = some 1 := by decide

/-- C2 amended: `process_complaints` fails (returns no summary) exactly when
no data is provided or the data list is empty; a nonempty batch whose records
all normalize to empty text is still processed into a dashboard summary. -/
theorem C2_no_input_exact (pipeline summarizer : Option (String → Option String))
    (o : Oracle) (data : Option (List RawRecord)) :
    process_complaints pipeline summarizer o data = none ↔ data = none ∨ data = some [] := by
  match data with
  | none => simp [process_complaints, processTry, Except.toOption]
  | some [] => simp [process_complaints, processTry, Except.toOption]
  | some (r :: rs) => simp [process_complaints, processTry, Except.toOption]

/-- C2 witness: the empty batch is indeed rejected. -/
theorem C2_witness : process_complaints none none oracleB (some []) = none :=
  (C2_no_input_exact none none oracleB (some [])).mpr (Or.inr rfl)

/-- C9: any error of the `try` body is caught and surfaced as `None` — the
caller sees `None` exactly when the body errored, never an exception or a
partial result. -/
theorem C9_errors_to_none (pipeline summarizer : Option (String → Option String))
    (o : Oracle) (data : Option (List RawRecord)) :
    (∃ e, processTry pipeline summarizer o data = Except.error e)
      ↔ process_complaints pipeline summarizer o data = none := by
  match data with
  | none => simp [process_complaints, processTry, Except.toOption]
  | some [] => simp [process_complaints, processTry, Except.toOption]
  | some (r :: rs) => simp [process_complaints, processTry, Except.toOption]

/-- C9 witness: the no-input `ValueError` path returns `None`. -/
theorem C9_witness : process_complaints none none oracleB none = none :=
  (C9_errors_to_none none none oracleB none).mp
    ⟨"Either data or file_path must be provided", rfl⟩

/-- C7 counterexample: under the fallback (no sentiment pipeline), a nonempty
negative-sounding text need not get `Negative` — with the draw landing on
Neutral it gets `Neutral`; and a text containing "urgent" need not get `High`
urgency — with the draw landing on Low it gets `Low`. -/
theorem C7_counterexample :
    ((analyze_sentiment none oracleB [⟨some "water leak", "water leak", "Hostel"⟩]).map
        AnalyzedRecord.sentiment) ≠ ["Negative"]
  ∧ ((analyze_sentiment none oracleB [⟨some "urgent", "urgent", "Hostel"⟩]).map
        AnalyzedRecord.urgency) ≠ ["High"] := by
  constructor
  · decide
  · decide

/-- C7 amended: under the fallback strategy sentiment is the per-row random
draw, and urgency is the per-row random draw under every strategy — neither
consults the text. -/
theorem C7_tone_is_random_draw (pipeline : Option (String → Option String)) (o : Oracle)
    (recs : List ClassifiedRecord) (i : Nat) (dflt : AnalyzedRecord)
    (h : i < recs.length) :
    ((analyze_sentiment none o recs).getD i dflt).sentiment = (o.sentimentDraw i).toName
  ∧ ((analyze_sentiment pipeline o recs).getD i dflt).urgency = (o.urgencyDraw i).toName := by
  constructor
  · rw [analyze_sentiment, getD_mapIdxFrom _ dflt ⟨none, "", ""⟩ recs 0 i h]
    simp
  · rw [analyze_sentiment, getD_mapIdxFrom _ dflt ⟨none, "", ""⟩ recs 0 i h]
    simp

/-- C7 witness: the amended claim at row 0 of a one-row batch. -/
theorem C7_witness :
    0 < ([⟨some "water leak", "water leak", "Hostel"⟩] : List ClassifiedRecord).length
  ∧ ((analyze_sentiment none oracleB [⟨some "water leak", "water leak", "Hostel"⟩]).getD 0
      ⟨none, "", "", "", ""⟩).sentiment = (oracleB.sentimentDraw 0).toName :=
  ⟨by decide,
    (C7_tone_is_random_draw none oracleB [⟨some "water leak", "water leak", "Hostel"⟩] 0
      ⟨none, "", "", "", ""⟩ (by decide)).1⟩

/-- C8 counterexample: with no external collaborators, the same batch run
under two different random-draw streams yields different dashboards, so
`process_complaints` is not a deterministic function of the input alone. -/
theorem C8_counterexample :
    process_complaints none none oracleA (some [⟨some "hostel"⟩])
      ≠ process_complaints none none oracleB (some [⟨some "hostel"⟩]) := by decide

/-- C8 amended: the pipeline is a deterministic function of the input together
with the random draws; `total_complaints` and `top_recurring_issues` do not
depend on the draws at all, while the label distributions may vary with them. -/
theorem C8_oracle_independent_fields (data : Option (List RawRecord)) (o o' : Oracle) :
    (process_complaints none none o data).map Dashboard.total_complaints
      = (process_complaints none none o' data).map Dashboard.total_complaints
  ∧ (process_complaints none none o data).map Dashboard.top_recurring_issues
      = (process_complaints none none o' data).map Dashboard.top_recurring_issues := by
  match data with
  | none => exact ⟨rfl, rfl⟩
  | some [] => exact ⟨rfl, rfl⟩
  | some (r :: rs) =>
    simp only [process_complaints, processTry, Except.toOption]
    constructor
    · simp only [Option.map_some', runPipeline, Option.some.injEq]
      rw [length_analyze_sentiment, length_classify_complaints,
        length_analyze_sentiment, length_classify_complaints]
    · simp only [Option.map_some', runPipeline, extract_trends, Option.some.injEq]
      rw [map_clean_analyze, map_clean_classify, map_clean_analyze, map_clean_classify]

/-- C10: the external summarizer is bypassed whenever the joined clean text is
at most 50 characters long — even when a summarizer is available, the weekly
summary is then the deterministic template fallback. -/
theorem C10_short_text_uses_fallback (summarizer : Option (String → Option String))
    (recs : List AnalyzedRecord)
    (h : (joinSpace (recs.map AnalyzedRecord.clean_text)).length ≤ 50) :
    (extract_trends summarizer recs).weekly_summary = fallbackSummary recs := by
  cases summarizer with
  | none => rfl
  | some f =>
    simp only [extract_trends]
    rw [if_neg (Nat.not_lt.mpr h)]

/-- C10 witness: a short batch with an available summarizer still gets the
template fallback. -/
theorem C10_witness :
    (joinSpace (([⟨some "hostel", "hostel", "Hostel", "Neutral", "Low"⟩] :
        List AnalyzedRecord).map AnalyzedRecord.clean_text)).length ≤ 50
  ∧ (extract_trends sumEx [⟨some "hostel", "hostel", "Hostel", "Neutral", "Low"⟩]).weekly_summary
      = fallbackSummary [⟨some "hostel", "hostel", "Hostel", "Neutral", "Low"⟩] :=
  ⟨by decide,
    C10_short_text_uses_fallback sumEx
      [⟨some "hostel", "hostel", "Hostel", "Neutral", "Low"⟩] (by decide)⟩

/-- C1: for every batch the orchestrator accepts, the category, sentiment and
urgency counts each sum to `total_complaints`, which is the record count after
deduplication. -/
theorem C1_sum_invariant (pipeline summarizer : Option (String → Option String))
    (o : Oracle) (data : Option (List RawRecord)) (d : Dashboard)
    (h : process_complaints pipeline summarizer o data = some d) :
    sumCounts d.complaint_volume_by_category = d.total_complaints
  ∧ sumCounts d.sentiment_overview = d.total_complaints
  ∧ sumCounts d.urgency_distribution = d.total_complaints
  ∧ (∀ rs, data = some rs → d.total_complaints = (drop_duplicates rs).length) := by
  match data with
  | none => simp [process_complaints, processTry, Except.toOption] at h
  | some [] => simp [process_complaints, processTry, Except.toOption] at h
  | some (r :: rs) =>
    simp only [process_complaints, processTry, Except.toOption, Option.some.injEq] at h
    subst h
    refine ⟨?_, ?_, ?_, ?_⟩
    · simp only [runPipeline]
      rw [sumCounts_value_counts, List.length_map]
    · simp only [runPipeline]
      rw [sumCounts_value_counts, List.length_map]
    · simp only [runPipeline]
      rw [sumCounts_value_counts, List.length_map]
    · intro rs' hrs'
      have hrs : rs' = r :: rs := by
        simpa using hrs'.symm
      subst hrs
      simp only [runPipeline]
      rw [length_analyze_sentiment, length_classify_complaints]
      simp [clean_data]

/-- C1 witness dashboard: the pipeline output on a one-record batch. -/
def dash1 : Dashboard :=
  (process_complaints none none oracleB (some [⟨some "hostel"⟩])).getD
    ⟨0, [], [], [], "", [], []⟩

/-- C1 witness: the sum invariant evaluated on a concrete accepted batch. -/
theorem C1_witness :
    process_complaints none none oracleB (some [⟨some "hostel"⟩]) = some dash1
  ∧ (sumCounts dash1.complaint_volume_by_category = dash1.total_complaints
    ∧ sumCounts dash1.sentiment_overview = dash1.total_complaints
    ∧ sumCounts dash1.urgency_distribution = dash1.total_complaints
    ∧ (∀ rs, (some [(⟨some "hostel"⟩ : RawRecord)] : Option (List RawRecord)) = some rs →
        dash1.total_complaints = (drop_duplicates rs).length)) :=
  ⟨rfl, C1_sum_invariant none none oracleB (some [⟨some "hostel"⟩]) dash1 rfl⟩

/-- C6: `extract_trends` renders at most three phrases, exactly in the format
`Frequent topic: "<Capitalized token>" (mentioned <count> times)`, for the
tokens ranked by descending frequency over the filtered token stream with ties
broken by first-occurrence order (counts are true occurrence counts, the
counter's key order is first-occurrence order, and the sort is stable on equal
counts); an empty batch or an all-filtered-out token stream yields the empty
sequence. -/
theorem C6_extract_trends_spec (summ : Option (String → Option String))
    (recs : List AnalyzedRecord) :
    ((extract_trends summ recs).top_recurring_issues
        = (top_words (recs.map AnalyzedRecord.clean_text)).map (fun p => renderIssue p.1 p.2))
  ∧ ((extract_trends summ recs).top_recurring_issues.length ≤ 3)
  ∧ (∀ p ∈ top_words (recs.map AnalyzedRecord.clean_text),
      p.2 = (filteredTokens (recs.map AnalyzedRecord.clean_text)).count p.1)
  ∧ ((sortDesc (counterList (filteredTokens (recs.map AnalyzedRecord.clean_text)))).Pairwise
      (fun a b => b.2 ≤ a.2))
  ∧ (∀ c, (sortDesc (counterList (filteredTokens (recs.map AnalyzedRecord.clean_text)))).filter
        (fun q => q.2 == c)
      = (counterList (filteredTokens (recs.map AnalyzedRecord.clean_text))).filter
        (fun q => q.2 == c))
  ∧ ((counterList (filteredTokens (recs.map AnalyzedRecord.clean_text))).map Prod.fst
      = dedupFirst (filteredTokens (recs.map AnalyzedRecord.clean_text)))
  ∧ (recs = [] → (extract_trends summ recs).top_recurring_issues = [])
  ∧ (filteredTokens (recs.map AnalyzedRecord.clean_text) = [] →
      (extract_trends summ recs).top_recurring_issues = []) := by
  have h1 : (extract_trends summ recs).top_recurring_issues
      = (top_words (recs.map AnalyzedRecord.clean_text)).map (fun p => renderIssue p.1 p.2) :=
    rfl
  refine ⟨h1, ?_, ?_, sortDesc_sorted _, fun c => sortDesc_filter_stable _ c,
    keys_counterList _, ?_, ?_⟩
  · rw [h1, List.length_map]
    exact List.length_take_le 3 _
  · intro p hp
    have hp1 : p ∈ sortDesc (counterList (filteredTokens (recs.map AnalyzedRecord.clean_text))) :=
      List.mem_of_mem_take hp
    have hp2 := (sortDesc_perm _).mem_iff.mp hp1
    exact mem_counterList_count _ p hp2
  · intro h
    subst h
    rfl
  · intro h
    rw [h1]
    simp only [top_words, h]
    rfl

/-- C6 witness: the spec's trend-ranking example. -/
theorem C6_witness :
    ((extract_trends none recs6).top_recurring_issues.length ≤ 3)
  ∧ (3 = (filteredTokens (recs6.map AnalyzedRecord.clean_text)).count "leak") := by
  refine ⟨(C6_extract_trends_spec none recs6).2.1, ?_⟩
  exact (C6_extract_trends_spec none recs6).2.2.1 ("leak", 3) (by decide)

end GrievanceInsight
